import Mathlib

/-!
Verification of the zlock screen-locker (`src/main.rs`) against its
specification.  The development shallowly embeds the program:

* the credential buffer (`InputHandler.buf : String` in the source) is a
  `List Char`; Rust's `String::len` is the UTF-8 byte length, so `bufLen`
  sums the UTF-8 sizes of the characters;
* the X11 setup sequence (`Lock::lock_screen`) is a function from an
  environment recording the outcome of every *checked* request
  (`send_and_check_request` / `?`) to the trace of protocol operations
  performed; requests sent with `send_request` are fire-and-forget and do
  not consult the environment — exactly as in the source;
* the blocking event loop (`InputHandler::get_input` and
  `Lock::authenticate`) is a function over an explicit list of X events,
  parametrised by an abstract xkb model (key-state update and
  keycode→keysym resolution are performed by the external xkbcommon
  library); it returns the final handler state, the unconsumed events and
  the trace of externally visible actions (colour fills, sleeps, PAM
  authentication calls);
* the xkb modifier state (`Keyb::clear_mod_state`) is a six-component
  record mirroring xkbcommon's depressed/latched/locked mods and layouts,
  with `update_mask` replacing all six components.
-/

namespace Zlock

/-! ## Credential buffer (`InputHandler`, src/main.rs lines 238-269) -/

/-- `const MAX_BUF_SIZE: usize = 100;` (src/main.rs line 8). -/
def MAX_BUF_SIZE : Nat := 100

/-- UTF-8 byte length of one character, as Rust's `char::len_utf8`. -/
def utf8Size (c : Char) : Nat :=
  if c.toNat < 0x80 then 1
  else if c.toNat < 0x800 then 2
  else if c.toNat < 0x10000 then 3
  else 4

/-- Rust `String::len`: the UTF-8 byte length of the buffer. -/
def bufLen (b : List Char) : Nat := (b.map utf8Size).sum

/-- `InputHandler::clear` (line 251): `self.buf.clear()`. -/
def clearBuf (_b : List Char) : List Char := []

/-- `InputHandler::push_char` (lines 255-261):
`if self.buf.len() == MAX_BUF_SIZE { self.clear(); } self.buf.push(c)`.
Note the guard compares the *byte* length with `==`. -/
def pushChar (b : List Char) (c : Char) : List Char :=
  (if bufLen b = MAX_BUF_SIZE then clearBuf b else b) ++ [c]

/-- `InputHandler::pop_char` (line 263): `self.buf.pop()` removes the last
character; a no-op on an empty `String`. -/
def popChar (b : List Char) : List Char := b.dropLast

/-! ## Colors (`mod color`, src/main.rs lines 371-382) -/

/-- `const fn rgb(r, g, b) = ((r as u32) << 16) | ((g as u32) << 8) | (b as u32)`. -/
def rgb (r g b : Nat) : Nat := (r <<< 16) ||| (g <<< 8) ||| b

def colorCyan : Nat := rgb 0 255 255
def colorRed : Nat := rgb 255 0 0
def colorBlack : Nat := rgb 0 0 0

/-! ## Events, keysyms and the abstract xkb model -/

/-- Direction of a key transition (`xkb::KeyDirection`). -/
inductive KeyDirection
  | down
  | up
deriving DecidableEq, Repr

/-- The classification the `match` in `get_input` (lines 286-311) performs on
the resolved keysym, given in match order: `Return`, `Escape`, `BackSpace`,
any modifier keysym (`is_modifier_key()`), and any other keysym together
with its `key_char()` (which is `none` when the keysym has no character). -/
inductive KeySym
  | ret
  | escape
  | backspace
  | modifier
  | other (c : Option Char)
deriving DecidableEq, Repr

/-- X events as seen by the loop: key presses and releases carry the raw
keycode (`event.detail()`); anything else is ignored by the `_ => continue`
arm. -/
inductive XEvent
  | press (k : Nat)
  | release (k : Nat)
  | otherEvent
deriving DecidableEq, Repr

/-- Externally visible actions of the loop: a full-surface colour fill with
flush (`Lock::set_win_color`), a thread sleep, and a PAM authentication
call with the submitted credential. -/
inductive XAction
  | setColor (c : Nat)
  | sleep (ms : Nat)
  | authCall (cred : List Char)
deriving DecidableEq, Repr

/-- Abstract model of the xkbcommon state machine used by `Keyb`:
`upd` is `State::update_key` (called on every press and release),
`resolve` is `State::key_get_one_sym` classified as a `KeySym`. -/
structure XkbModel (K : Type) where
  upd : K → Nat → KeyDirection → K
  resolve : K → Nat → KeySym

/-- `InputHandler` (lines 238-241): the credential buffer and the xkb
state. -/
structure IH (K : Type) where
  buf : List Char
  keyb : K
deriving DecidableEq, Repr

/-! ## The event loop (`InputHandler::get_input`, lines 271-313) -/

/-- One iteration of the `loop` inside `get_input`.  `Sum.inl` is
"continue", `Sum.inr` is "break out of `get_input`".  On a press the xkb
state is updated first (`self.keyb.update(..., Down)`), then the keysym is
resolved from the updated state and dispatched:
* `Return` breaks (submit);
* `Escape` repaints black and clears the buffer;
* `BackSpace` pops the last character;
* a modifier keysym is ignored;
* a keysym with no character clears the buffer and breaks
  (lines 299-304);
* a character keysym paints cyan if the buffer was empty, then pushes. -/
def processEvent {K : Type} (M : XkbModel K) (h : IH K) :
    XEvent → (IH K × List XAction) ⊕ (IH K × List XAction)
  | .release k => .inl ({ h with keyb := M.upd h.keyb k .up }, [])
  | .otherEvent => .inl (h, [])
  | .press k =>
    let kb := M.upd h.keyb k .down
    match M.resolve kb k with
    | .ret => .inr ({ h with keyb := kb }, [])
    | .escape => .inl (⟨clearBuf h.buf, kb⟩, [.setColor colorBlack])
    | .backspace => .inl (⟨popChar h.buf, kb⟩, [])
    | .modifier => .inl ({ h with keyb := kb }, [])
    | .other none => .inr (⟨clearBuf h.buf, kb⟩, [])
    | .other (some c) =>
      .inl (⟨pushChar h.buf c, kb⟩,
        if h.buf = [] then [.setColor colorCyan] else [])

/-- The event loop of `get_input`, folded over the event list.  `Sum.inl`
is the break result: final handler, unconsumed events, and the action
trace; `Sum.inr` means the event list was exhausted without a break (the
real loop would still be blocked in `wait_for_event`). -/
def getInputGo {K : Type} (M : XkbModel K) :
    List XEvent → IH K → List XAction →
    (IH K × List XEvent × List XAction) ⊕ (IH K × List XAction)
  | [], h, acc => .inr (h, acc)
  | ev :: rest, h, acc =>
    match processEvent M h ev with
    | .inl (h', a) => getInputGo M rest h' (acc ++ a)
    | .inr (h', a) => .inl (h', rest, acc ++ a)

/-- `InputHandler::get_input` (lines 271-313): paints black
(`set_win_color(BLACK)`) and runs the loop; `none` models a loop that
never breaks on the given events (still blocked). -/
def getInput {K : Type} (M : XkbModel K) (evs : List XEvent) (h : IH K) :
    Option (IH K × List XEvent × List XAction) :=
  match getInputGo M evs h [.setColor colorBlack] with
  | .inl r => some r
  | .inr _ => none

/-! ## The authentication loop (`Lock::authenticate`, lines 199-218) -/

/-- Outcome of one iteration of the `loop` in `authenticate`:
`next` means the loop runs another round, `unlocked` means `break`. -/
inductive RoundResult (K : Type)
  | next (h : IH K) (rest : List XEvent) (acts : List XAction)
  | unlocked (h : IH K) (rest : List XEvent) (acts : List XAction)
deriving DecidableEq, Repr

/-- One iteration of the loop body in `authenticate` (lines 203-216):
`get_input`, then `let pass = handler.get_str()`; if `pass` is non-empty,
call PAM — on success `break`, on failure paint red, sleep 500 ms and
`handler.clear()`; if `pass` is empty, do nothing and loop. -/
def authRound {K : Type} (M : XkbModel K) (verify : List Char → Bool)
    (evs : List XEvent) (h : IH K) : Option (RoundResult K) :=
  match getInput M evs h with
  | none => none
  | some (h', rest, acts) =>
    let pass := h'.buf
    if pass.isEmpty then some (.next h' rest acts)
    else if verify pass then
      some (.unlocked h' rest (acts ++ [.authCall pass]))
    else
      some (.next ⟨clearBuf pass, h'.keyb⟩ rest
        (acts ++ [.authCall pass, .setColor colorRed, .sleep 500]))

/-- The `loop` in `authenticate`, fueled by the maximum number of rounds.
`some (h, acts)` is a successful unlock; `none` models a loop that is
still running or blocked. -/
def authLoop {K : Type} (M : XkbModel K) (verify : List Char → Bool) :
    Nat → List XEvent → IH K → List XAction → Option (IH K × List XAction)
  | 0, _, _, _ => none
  | fuel + 1, evs, h, acc =>
    match authRound M verify evs h with
    | none => none
    | some (.unlocked h' _ a) => some (h', acc ++ a)
    | some (.next h' rest a) => authLoop M verify fuel rest h' (acc ++ a)

/-- `Lock::authenticate` from the start: `InputHandler::new` creates an
empty buffer (`String::with_capacity(MIN_BUF_CAP)`) and the xkb state
`k0`, then the loop runs. -/
def authenticate {K : Type} (M : XkbModel K) (verify : List Char → Bool)
    (fuel : Nat) (evs : List XEvent) (k0 : K) :
    Option (IH K × List XAction) :=
  authLoop M verify fuel evs ⟨[], k0⟩ []

/-! ## The X11 setup sequence (`Lock::lock_screen`, lines 189-197)

`lock_screen` runs `Lock::new` → `draw_win` → `init_cursor` →
`grab_cursor` → `grab_keyboard` → `flush`.  Every request issued with
`send_and_check_request` (or `?`) propagates failure; every request
issued with `send_request` is fire-and-forget: its reply/error is never
inspected.  In particular `GrabPointer` and `GrabKeyboard` both have a
reply carrying a grab status, and the source drops both cookies
(lines 140-151 and 154-162). -/

/-- Protocol-level operations performed during setup, in source order. -/
inductive Op
  | connect
  | createWindow
  | createGc
  | mapWindow
  | flush
  | waitExpose
  | fillRect
  | createPixmap
  | createCursor
  | changeWinAttrs
  | grabPointer
  | grabKeyboard
  | pamInit
  | keybNew
  | changeGc
  | waitEvent
deriving DecidableEq, Repr

/-- Status the X server reports in the reply to `GrabPointer` /
`GrabKeyboard`. -/
inductive GrabStatus
  | success
  | alreadyGrabbed
  | invalidTime
  | notViewable
  | frozen
deriving DecidableEq, Repr

/-- Outcome of every fallible step of the setup, plus the grab statuses
the server would report in the (discarded) grab replies. -/
structure XEnv where
  connectOk : Bool
  createWindowOk : Bool
  createGcOk : Bool
  mapWindowOk : Bool
  flushOk : Bool
  waitEventOk : Bool
  fillOk : Bool
  createCursorOk : Bool
  grabPointerStatus : GrabStatus
  grabKeyboardStatus : GrabStatus
deriving DecidableEq, Repr

/-- A checked request: appends its op to the trace when the environment
reports success, aborts the setup otherwise (the `?` operator). -/
def checked (ok : Bool) (t : List Op) (op : Op) : Option (List Op) :=
  if ok then some (t ++ [op]) else none

/-- `Lock::lock_screen` (lines 189-197), as a trace of protocol
operations.  `none` models an early return with `Err` (which `main`'s
`expect` turns into an abort before the session runs).  The grab statuses
in the environment are never consulted: the source drops the grab
cookies. -/
def lockScreen (e : XEnv) : Option (List Op) := do
  -- Lock::new (line 37): Connection::connect(None)?
  let t ← checked e.connectOk [] .connect
  -- draw_win (lines 51-107)
  let t ← checked e.createWindowOk t .createWindow
  let t ← checked e.createGcOk t .createGc
  let t ← checked e.mapWindowOk t .mapWindow
  let t ← checked e.flushOk t .flush
  -- blocking wait until an Expose event confirms the window is drawn
  let t ← checked e.waitEventOk t .waitExpose
  let t ← checked e.fillOk t .fillRect
  -- init_cursor (lines 110-137); CreatePixmap and ChangeWindowAttributes
  -- are sent with send_request and never checked
  let t := t ++ [.createPixmap]
  let t ← checked e.createCursorOk t .createCursor
  let t := t ++ [.changeWinAttrs]
  -- grab_cursor (lines 140-151) and grab_keyboard (lines 154-162):
  -- both sent with send_request, reply cookies discarded
  let t := t ++ [.grabPointer]
  let t := t ++ [.grabKeyboard]
  -- final flush (line 195)
  checked e.flushOk t .flush

/-- An environment in which every checked request succeeds and both grabs
succeed. -/
def envOk : XEnv :=
  ⟨true, true, true, true, true, true, true, true, .success, .success⟩

/-- An environment in which every checked request succeeds but another
client already holds both the pointer and the keyboard grab, so both grab
replies report `AlreadyGrabbed`. -/
def envGrabFail : XEnv :=
  ⟨true, true, true, true, true, true, true, true,
    .alreadyGrabbed, .alreadyGrabbed⟩

/-- The operations `Lock::authenticate` performs before its first
blocking wait: PAM client construction, `InputHandler::new` (which builds
the xkb state, `Keyb::new`), then the first `get_input` round's
`set_win_color(BLACK)` (a `ChangeGc`, a `PolyFillRectangle` and a flush)
and the first blocking `wait_for_event`. -/
def authHead : List Op :=
  [.pamInit, .keybNew, .changeGc, .fillRect, .flush, .waitEvent]

/-- The whole setup trace of a successful run, from `main` through the
first blocking wait of the input loop. -/
def setupTrace : List Op := (lockScreen envOk).getD [] ++ authHead

/-! ## The xkb modifier state (`Keyb`, lines 316-369)

Model of the xkbcommon `State` component the source manipulates: the
depressed, latched and locked modifier masks and layout indices.
`serialize_mods(STATE_MODS_LOCKED)` reads the locked modifier mask,
`serialize_layout(STATE_LAYOUT_LOCKED)` the locked layout, and
`update_mask` replaces all six components. -/

structure XkbState where
  depressedMods : Nat
  latchedMods : Nat
  lockedMods : Nat
  depressedLayout : Nat
  latchedLayout : Nat
  lockedLayout : Nat
deriving DecidableEq, Repr

/-- `state.serialize_mods(xkb::STATE_MODS_LOCKED)`. -/
def serializeModsLocked (s : XkbState) : Nat := s.lockedMods

/-- `state.serialize_layout(xkb::STATE_LAYOUT_LOCKED)`. -/
def serializeLayoutLocked (s : XkbState) : Nat := s.lockedLayout

/-- `state.update_mask(dm, lm, km, dl, ll, kl)`: replaces the six
components of the state. -/
def updateMask (_s : XkbState) (dm lm km dl ll kl : Nat) : XkbState :=
  ⟨dm, lm, km, dl, ll, kl⟩

/-- `Keyb::clear_mod_state` (lines 352-368): read the locked modifier
mask and locked layout, then `update_mask(0, 0, locked_mods, 0, 0,
locked_layout)`. -/
def clearModState (s : XkbState) : XkbState :=
  let lockedMods := serializeModsLocked s
  let lockedLayout := serializeLayoutLocked s
  updateMask s 0 0 lockedMods 0 0 lockedLayout

/-- `Keyb::new` (lines 319-341): the state obtained from the device
(`state_new_from_device`) is passed through `clear_mod_state` exactly
once before use. -/
def keybNewState (deviceState : XkbState) : XkbState :=
  clearModState deviceState

/-! ## UTF-8 serialization of the buffer

Rust's `String` stores the buffer as UTF-8 bytes and `get_str` (line 267)
returns it as `&str` without any fallible decoding step; the type
invariant is that the bytes are always a valid encoding.  To check that
invariant for the buffer the program builds, we define the UTF-8 encoding
of a list of characters and a (strict) byte-level decoder, and prove the
round trip. -/

/-- UTF-8 encoding of one Unicode scalar value (as in Rust's
`char::encode_utf8`), written with `/` and `%` (for `n` in range this
agrees with the usual shift-and-mask form). -/
def utf8EncodeChar (n : Nat) : List Nat :=
  if n < 0x80 then [n]
  else if n < 0x800 then [0xC0 + n / 64, 0x80 + n % 64]
  else if n < 0x10000 then
    [0xE0 + n / 4096, 0x80 + n / 64 % 64, 0x80 + n % 64]
  else
    [0xF0 + n / 262144, 0x80 + n / 4096 % 64, 0x80 + n / 64 % 64,
      0x80 + n % 64]

/-- UTF-8 encoding of a character list (the byte content of the Rust
`String`). -/
def utf8EncodeList : List Char → List Nat
  | [] => []
  | c :: cs => utf8EncodeChar c.toNat ++ utf8EncodeList cs

/-- Strict UTF-8 decoding of one scalar value from the front of a byte
list: rejects stray continuation bytes, overlong forms, surrogates and
out-of-range values; returns the scalar and the remaining bytes. -/
def utf8DecodeChar : List Nat → Option (Nat × List Nat)
  | [] => none
  | b0 :: rest =>
    if b0 < 0x80 then some (b0, rest)
    else if b0 < 0xC2 then none
    else if b0 < 0xE0 then
      match rest with
      | b1 :: r =>
        if 0x80 ≤ b1 ∧ b1 < 0xC0 then
          some ((b0 - 0xC0) * 64 + (b1 - 0x80), r)
        else none
      | [] => none
    else if b0 < 0xF0 then
      match rest with
      | b1 :: b2 :: r =>
        if (0x80 ≤ b1 ∧ b1 < 0xC0) ∧ (0x80 ≤ b2 ∧ b2 < 0xC0) then
          let cp := (b0 - 0xE0) * 4096 + (b1 - 0x80) * 64 + (b2 - 0x80)
          if cp < 0x800 ∨ (0xD800 ≤ cp ∧ cp < 0xE000) then none
          else some (cp, r)
        else none
      | _ => none
    else if b0 < 0xF5 then
      match rest with
      | b1 :: b2 :: b3 :: r =>
        if (0x80 ≤ b1 ∧ b1 < 0xC0) ∧ (0x80 ≤ b2 ∧ b2 < 0xC0) ∧
            (0x80 ≤ b3 ∧ b3 < 0xC0) then
          let cp := (b0 - 0xF0) * 262144 + (b1 - 0x80) * 4096 +
            (b2 - 0x80) * 64 + (b3 - 0x80)
          if cp < 0x10000 ∨ 0x110000 ≤ cp then none else some (cp, r)
        else none
      | _ => none
    else none

/-- Fueled decoder for a whole byte list. -/
def utf8DecodeGo : Nat → List Nat → Option (List Nat)
  | 0, bs => if bs = [] then some [] else none
  | fuel + 1, bs =>
    if bs = [] then some []
    else
      match utf8DecodeChar bs with
      | none => none
      | some (n, r) => (utf8DecodeGo fuel r).map (n :: ·)

/-- Decode a byte list to the list of Unicode scalar values it encodes;
`none` on any decoding error. -/
def utf8Decode (bs : List Nat) : Option (List Nat) :=
  utf8DecodeGo bs.length bs

/-! ## Round-trip lemmas for the UTF-8 serialization -/

/-- Every Lean `Char` carries a valid Unicode scalar value: below the
surrogate range or strictly between it and `0x110000`. -/
theorem charToNat_valid (c : Char) :
    c.toNat < 0xD800 ∨ (0xDFFF < c.toNat ∧ c.toNat < 0x110000) := by
  have h := c.valid
  simp only [UInt32.isValidChar, Nat.isValidChar, Char.toNat] at h ⊢
  exact h

theorem utf8EncodeChar_length_pos (n : Nat) :
    0 < (utf8EncodeChar n).length := by
  unfold utf8EncodeChar
  split_ifs <;> simp

/-- Decoding the encoding of one valid scalar from the front of a byte
list recovers the scalar and the rest. -/
theorem utf8DecodeChar_encode (n : Nat)
    (hv : n < 0xD800 ∨ (0xDFFF < n ∧ n < 0x110000)) (r : List Nat) :
    utf8DecodeChar (utf8EncodeChar n ++ r) = some (n, r) := by
  by_cases h1 : n < 0x80
  · simp only [utf8EncodeChar, if_pos h1, List.cons_append, List.nil_append,
      utf8DecodeChar, if_pos h1]
  · by_cases h2 : n < 0x800
    · have e : utf8EncodeChar n = [0xC0 + n / 64, 0x80 + n % 64] := by
        simp [utf8EncodeChar, h1, h2]
      rw [e]
      simp only [List.cons_append, List.nil_append, utf8DecodeChar]
      rw [if_neg (by omega), if_neg (by omega), if_pos (by omega),
        if_pos (by omega)]
      simp only [Option.some.injEq, Prod.mk.injEq]
      exact ⟨by omega, trivial⟩
    · by_cases h3 : n < 0x10000
      · have e : utf8EncodeChar n =
            [0xE0 + n / 4096, 0x80 + n / 64 % 64, 0x80 + n % 64] := by
          simp [utf8EncodeChar, h1, h2, h3]
        rw [e]
        simp only [List.cons_append, List.nil_append, utf8DecodeChar]
        rw [if_neg (by omega), if_neg (by omega), if_neg (by omega),
          if_pos (by omega), if_pos (by omega), if_neg (by omega)]
        simp only [Option.some.injEq, Prod.mk.injEq]
        exact ⟨by omega, trivial⟩
      · have h4 : n < 0x110000 := by omega
        have e : utf8EncodeChar n =
            [0xF0 + n / 262144, 0x80 + n / 4096 % 64, 0x80 + n / 64 % 64,
              0x80 + n % 64] := by
          simp [utf8EncodeChar, h1, h2, h3]
        rw [e]
        simp only [List.cons_append, List.nil_append, utf8DecodeChar]
        rw [if_neg (by omega), if_neg (by omega), if_neg (by omega),
          if_neg (by omega), if_pos (by omega), if_pos (by omega),
          if_neg (by omega)]
        simp only [Option.some.injEq, Prod.mk.injEq]
        exact ⟨by omega, trivial⟩

theorem utf8EncodeList_ne_nil (c : Char) (cs : List Char) :
    utf8EncodeChar c.toNat ++ utf8EncodeList cs ≠ [] := by
  have hpos := utf8EncodeChar_length_pos c.toNat
  intro h
  have h2 := congrArg List.length h
  rw [List.length_append] at h2
  simp only [List.length_nil] at h2
  omega

/-- The fueled decoder inverts the encoder whenever the fuel covers the
byte length. -/
theorem utf8DecodeGo_encode (l : List Char) :
    ∀ fuel, (utf8EncodeList l).length ≤ fuel →
      utf8DecodeGo fuel (utf8EncodeList l) = some (l.map Char.toNat) := by
  induction l with
  | nil =>
    intro fuel _
    cases fuel <;> simp [utf8EncodeList, utf8DecodeGo]
  | cons c cs ih =>
    intro fuel hf
    have hpos := utf8EncodeChar_length_pos c.toNat
    rw [show utf8EncodeList (c :: cs) =
      utf8EncodeChar c.toNat ++ utf8EncodeList cs from rfl] at hf ⊢
    rw [List.length_append] at hf
    obtain ⟨f, rfl⟩ : ∃ f, fuel = f + 1 := ⟨fuel - 1, by omega⟩
    rw [utf8DecodeGo, if_neg (utf8EncodeList_ne_nil c cs),
      utf8DecodeChar_encode c.toNat (charToNat_valid c) (utf8EncodeList cs)]
    dsimp only
    rw [ih f (by omega)]
    simp

/-- Decoding the byte serialization of any character list succeeds and
yields exactly those characters' scalar values. -/
theorem utf8Decode_encode (l : List Char) :
    utf8Decode (utf8EncodeList l) = some (l.map Char.toNat) :=
  utf8DecodeGo_encode l (utf8EncodeList l).length le_rfl

/-! ## Helper lemmas about the event loop -/

/-- The actions emitted by one loop iteration, for either outcome. -/
def peActs {K : Type} (r : (IH K × List XAction) ⊕ (IH K × List XAction)) :
    List XAction :=
  match r with
  | .inl (_, a) => a
  | .inr (_, a) => a

/-- The action trace of a `getInputGo` result, for either outcome. -/
def goActs {K : Type}
    (r : (IH K × List XEvent × List XAction) ⊕ (IH K × List XAction)) :
    List XAction :=
  match r with
  | .inl (_, _, a) => a
  | .inr (_, a) => a

/-- One loop iteration emits no action, a black repaint, or a cyan
repaint — in particular never an authentication call or a sleep. -/
theorem processEvent_acts_cases {K : Type} (M : XkbModel K) (h : IH K)
    (ev : XEvent) :
    peActs (processEvent M h ev) = [] ∨
    peActs (processEvent M h ev) = [XAction.setColor colorBlack] ∨
    peActs (processEvent M h ev) = [XAction.setColor colorCyan] := by
  cases ev with
  | release k => left; rfl
  | otherEvent => left; rfl
  | press k =>
    cases hM : M.resolve (M.upd h.keyb k .down) k with
    | ret => simp [processEvent, peActs, hM]
    | escape => simp [processEvent, peActs, hM]
    | backspace => simp [processEvent, peActs, hM]
    | modifier => simp [processEvent, peActs, hM]
    | other c =>
      cases c with
      | none => simp [processEvent, peActs, hM]
      | some c =>
        simp only [processEvent, peActs, hM]
        by_cases hb : h.buf = [] <;> simp [hb]

/-- Processing a concatenated event list first processes the prefix. -/
theorem getInputGo_append {K : Type} (M : XkbModel K) (xs ys : List XEvent)
    (h : IH K) (acc : List XAction) :
    getInputGo M (xs ++ ys) h acc =
      match getInputGo M xs h acc with
      | .inl (h₁, r₁, a₁) => .inl (h₁, r₁ ++ ys, a₁)
      | .inr (h₁, a₁) => getInputGo M ys h₁ a₁ := by
  induction xs generalizing h acc with
  | nil => rfl
  | cons ev rest ih =>
    simp only [List.cons_append, getInputGo]
    cases hpe : processEvent M h ev with
    | inl p =>
      obtain ⟨h', a⟩ := p
      exact ih h' (acc ++ a)
    | inr p =>
      obtain ⟨h', a⟩ := p
      rfl

/-- The action trace of the loop extends the accumulator with repaint
actions only (never an authentication call, never a sleep). -/
theorem getInputGo_acts {K : Type} (M : XkbModel K) (evs : List XEvent)
    (h : IH K) (acc : List XAction) :
    ∃ t, goActs (getInputGo M evs h acc) = acc ++ t ∧
      ∀ a ∈ t, ∃ c, a = XAction.setColor c := by
  induction evs generalizing h acc with
  | nil => exact ⟨[], by simp [getInputGo, goActs], by simp⟩
  | cons ev rest ih =>
    have hcases := processEvent_acts_cases M h ev
    cases hpe : processEvent M h ev with
    | inl p =>
      obtain ⟨h', a⟩ := p
      obtain ⟨t, ht, hall⟩ := ih h' (acc ++ a)
      refine ⟨a ++ t, ?_, ?_⟩
      · rw [show getInputGo M (ev :: rest) h acc =
          getInputGo M rest h' (acc ++ a) by simp [getInputGo, hpe]]
        rw [ht, List.append_assoc]
      · intro x hx
        rcases List.mem_append.mp hx with hx | hx
        · rw [hpe] at hcases
          simp only [peActs] at hcases
          rcases hcases with hc | hc | hc <;> rw [hc] at hx <;>
            simp at hx <;> exact ⟨_, hx⟩
        · exact hall x hx
    | inr p =>
      obtain ⟨h', a⟩ := p
      refine ⟨a, ?_, ?_⟩
      · rw [show getInputGo M (ev :: rest) h acc =
          .inl (h', rest, acc ++ a) by simp [getInputGo, hpe]]
        rfl
      · intro x hx
        rw [hpe] at hcases
        simp only [peActs] at hcases
        rcases hcases with hc | hc | hc <;> rw [hc] at hx <;>
          simp at hx <;> exact ⟨_, hx⟩

/-- Every action trace returned by `get_input` starts with the black
repaint and consists of repaints only: in particular it contains no
authentication call and no sleep. -/
theorem getInput_acts {K : Type} (M : XkbModel K) (evs : List XEvent)
    (h h' : IH K) (rest : List XEvent) (acts : List XAction)
    (hg : getInput M evs h = some (h', rest, acts)) :
    acts.head? = some (XAction.setColor colorBlack) ∧
    ∀ a ∈ acts, ∃ c, a = XAction.setColor c := by
  unfold getInput at hg
  obtain ⟨t, ht, hall⟩ :=
    getInputGo_acts M evs h [XAction.setColor colorBlack]
  cases hgo : getInputGo M evs h [XAction.setColor colorBlack] with
  | inl r =>
    rw [hgo] at hg ht
    obtain ⟨h₂, rest₂, acts₂⟩ := r
    simp only [Option.some.injEq] at hg
    obtain ⟨rfl, rfl, rfl⟩ : h₂ = h' ∧ rest₂ = rest ∧ acts₂ = acts := by
      exact ⟨congrArg (·.1) hg, congrArg (·.2.1) hg, congrArg (·.2.2) hg⟩
    simp only [goActs] at ht
    constructor
    · rw [ht]; rfl
    · intro a ha
      rw [ht] at ha
      rcases List.mem_append.mp ha with ha | ha
      · simp at ha; exact ⟨_, ha⟩
      · exact hall a ha
  | inr r => rw [hgo] at hg; exact absurd hg (by simp)

/-- Unfolding `authRound` when `get_input` returned. -/
theorem authRound_eq {K : Type} (M : XkbModel K) (verify : List Char → Bool)
    (evs : List XEvent) (h h' : IH K) (rest : List XEvent)
    (acts : List XAction)
    (hg : getInput M evs h = some (h', rest, acts)) :
    authRound M verify evs h =
      (if h'.buf.isEmpty then some (.next h' rest acts)
        else if verify h'.buf then
          some (.unlocked h' rest (acts ++ [.authCall h'.buf]))
        else
          some (.next ⟨[], h'.keyb⟩ rest
            (acts ++ [.authCall h'.buf, .setColor colorRed,
              .sleep 500]))) := by
  unfold authRound
  rw [hg]
  rfl

/-! ## A concrete xkb model used to exercise the theorems

A tiny keycode table standing in for a compiled keymap: keycode 36 is
Return, 9 Escape, 22 BackSpace, 50 a modifier (Shift), 255 a keysym with
no character, and any other keycode resolves to the character with that
code point. -/

def demoResolve (k : Nat) : KeySym :=
  if k = 36 then .ret
  else if k = 9 then .escape
  else if k = 22 then .backspace
  else if k = 50 then .modifier
  else if k = 255 then .other none
  else .other (some (Char.ofNat k))

def demoModel : XkbModel Unit :=
  ⟨fun _ _ _ => (), fun _ k => demoResolve k⟩

/-! ## Claims about the session loop -/

/-- C3: whenever `get_input` returns with an empty credential buffer (in
particular on an Enter press with nothing typed), the round is a no-op:
the authenticator is never called, no feedback action is added, the
handler is exactly what `get_input` produced, and the loop simply goes on
waiting for more input. -/
theorem C3_empty_submit_is_noop {K : Type} (M : XkbModel K)
    (verify : List Char → Bool) (evs : List XEvent) (h h' : IH K)
    (rest : List XEvent) (acts : List XAction)
    (hg : getInput M evs h = some (h', rest, acts)) (hbuf : h'.buf = []) :
    authRound M verify evs h = some (.next h' rest acts) ∧
    ∀ cred, XAction.authCall cred ∉ acts := by
  constructor
  · rw [authRound_eq M verify evs h h' rest acts hg, hbuf]
    rfl
  · intro cred hmem
    obtain ⟨-, hall⟩ := getInput_acts M evs h h' rest acts hg
    obtain ⟨c, hc⟩ := hall _ hmem
    exact XAction.noConfusion hc

/-- Witness for C3: pressing Enter with nothing typed leaves the loop
exactly where it was, with only the initial black repaint performed. -/
theorem C3_witness :
    authRound demoModel (fun _ => true) [XEvent.press 36] ⟨[], ()⟩ =
      some (.next ⟨[], ()⟩ [] [XAction.setColor colorBlack]) :=
  (C3_empty_submit_is_noop demoModel (fun _ => true) [XEvent.press 36]
    ⟨[], ()⟩ ⟨[], ()⟩ [] [XAction.setColor colorBlack] rfl rfl).1

/-- C4: a submit of a non-empty buffer judged Incorrect leaves the buffer
observably empty, and the loop continues (the round result is `next`, and
the next `authLoop` round starts from the cleared handler). -/
theorem C4_incorrect_clears_buffer_loop_continues {K : Type}
    (M : XkbModel K) (verify : List Char → Bool) (evs : List XEvent)
    (h h' : IH K) (rest : List XEvent) (acts : List XAction)
    (hg : getInput M evs h = some (h', rest, acts))
    (hne : h'.buf ≠ []) (hv : verify h'.buf = false) :
    authRound M verify evs h =
      some (.next ⟨[], h'.keyb⟩ rest
        (acts ++ [.authCall h'.buf, .setColor colorRed, .sleep 500])) ∧
    ∀ fuel acc, authLoop M verify (fuel + 1) evs h acc =
      authLoop M verify fuel rest ⟨[], h'.keyb⟩
        (acc ++ (acts ++ [.authCall h'.buf, .setColor colorRed,
          .sleep 500])) := by
  have hr : authRound M verify evs h =
      some (.next ⟨[], h'.keyb⟩ rest
        (acts ++ [.authCall h'.buf, .setColor colorRed, .sleep 500])) := by
    rw [authRound_eq M verify evs h h' rest acts hg]
    simp [List.isEmpty_iff, hne, hv, clearBuf]
  exact ⟨hr, fun fuel acc => by simp [authLoop, hr]⟩

/-- Witness for C4: typing "hi" and submitting against an authenticator
that rejects everything clears the buffer, paints red, sleeps 500 ms and
continues the loop from the cleared handler. -/
theorem C4_witness :
    authRound demoModel (fun _ => false)
      [XEvent.press 104, XEvent.press 105, XEvent.press 36] ⟨[], ()⟩ =
      some (.next ⟨[], ()⟩ []
        [XAction.setColor colorBlack, XAction.setColor colorCyan,
          XAction.authCall ['h', 'i'], XAction.setColor colorRed,
          XAction.sleep 500]) ∧
    authLoop demoModel (fun _ => false) 1
      [XEvent.press 104, XEvent.press 105, XEvent.press 36] ⟨[], ()⟩ [] =
      authLoop demoModel (fun _ => false) 0 [] ⟨[], ()⟩
        ([] ++ ([XAction.setColor colorBlack, XAction.setColor colorCyan] ++
          [XAction.authCall ['h', 'i'], XAction.setColor colorRed,
            XAction.sleep 500])) := by
  have t := C4_incorrect_clears_buffer_loop_continues demoModel
    (fun _ => false) [XEvent.press 104, XEvent.press 105, XEvent.press 36]
    ⟨[], ()⟩ ⟨['h', 'i'], ()⟩ []
    [XAction.setColor colorBlack, XAction.setColor colorCyan]
    (by decide) (by decide) rfl
  exact ⟨t.1, t.2 0 []⟩

/-- C6 counterexample: the claim says the buffer is cleared after every
attempt regardless of outcome, but after a *Correct* verdict the loop
breaks without clearing: submitting the correct credential "hi" ends the
round with the handler still holding `['h','i']`. -/
theorem C6_counterexample :
    authRound demoModel (fun s => s == ['h', 'i'])
      [XEvent.press 104, XEvent.press 105, XEvent.press 36] ⟨[], ()⟩ =
      some (.unlocked ⟨['h', 'i'], ()⟩ []
        [XAction.setColor colorBlack, XAction.setColor colorCyan,
          XAction.authCall ['h', 'i']]) ∧
    (['h', 'i'] : List Char) ≠ [] := by
  exact ⟨by decide, by decide⟩

/-- C6 amended: the buffer is cleared after every *failed* attempt before
the loop continues; after a *successful* attempt the loop terminates at
once with the buffer still holding the typed credential (the `break` at
line 209 skips `handler.clear()`). -/
theorem C6_cleared_only_after_failed_attempt {K : Type} (M : XkbModel K)
    (verify : List Char → Bool) (evs : List XEvent) (h h' : IH K)
    (rest : List XEvent) (acts : List XAction)
    (hg : getInput M evs h = some (h', rest, acts)) (hne : h'.buf ≠ []) :
    (verify h'.buf = false →
      authRound M verify evs h =
        some (.next ⟨[], h'.keyb⟩ rest
          (acts ++ [.authCall h'.buf, .setColor colorRed,
            .sleep 500]))) ∧
    (verify h'.buf = true →
      authRound M verify evs h =
        some (.unlocked h' rest (acts ++ [.authCall h'.buf])) ∧
      h'.buf ≠ []) := by
  constructor
  · intro hv
    rw [authRound_eq M verify evs h h' rest acts hg]
    simp [List.isEmpty_iff, hne, hv, clearBuf]
  · intro hv
    refine ⟨?_, hne⟩
    rw [authRound_eq M verify evs h h' rest acts hg]
    simp [List.isEmpty_iff, hne, hv]

/-- Witness for the amended C6: a wrong submit ("ho" against secret "hi")
continues with a cleared buffer; the right submit terminates with the
buffer still full. -/
theorem C6_witness :
    authRound demoModel (fun s => s == ['h', 'i'])
      [XEvent.press 104, XEvent.press 111, XEvent.press 36] ⟨[], ()⟩ =
      some (.next ⟨[], ()⟩ []
        [XAction.setColor colorBlack, XAction.setColor colorCyan,
          XAction.authCall ['h', 'o'], XAction.setColor colorRed,
          XAction.sleep 500]) ∧
    authRound demoModel (fun s => s == ['h', 'i'])
      [XEvent.press 104, XEvent.press 105, XEvent.press 36] ⟨[], ()⟩ =
      some (.unlocked ⟨['h', 'i'], ()⟩ []
        [XAction.setColor colorBlack, XAction.setColor colorCyan,
          XAction.authCall ['h', 'i']]) := by
  refine ⟨?_, ?_⟩
  · exact (C6_cleared_only_after_failed_attempt demoModel
      (fun s => s == ['h', 'i'])
      [XEvent.press 104, XEvent.press 111, XEvent.press 36]
      ⟨[], ()⟩ ⟨['h', 'o'], ()⟩ []
      [XAction.setColor colorBlack, XAction.setColor colorCyan]
      (by decide) (by decide)).1 (by decide)
  · exact ((C6_cleared_only_after_failed_attempt demoModel
      (fun s => s == ['h', 'i'])
      [XEvent.press 104, XEvent.press 105, XEvent.press 36]
      ⟨[], ()⟩ ⟨['h', 'i'], ()⟩ []
      [XAction.setColor colorBlack, XAction.setColor colorCyan]
      (by decide) (by decide)).2 (by decide)).1

/-- C7: when a pressed key resolves to a keysym with no character, the
buffer is cleared (whatever partial input it held) and `get_input`
returns; the enclosing round then sees an empty credential, calls no
authenticator and continues — no stale partial input survives. -/
theorem C7_undecodable_clears_and_terminates {K : Type} (M : XkbModel K)
    (verify : List Char → Bool) (pre rest : List XEvent) (k : Nat)
    (h h₁ : IH K) (a₁ : List XAction)
    (hpre : getInputGo M pre h [XAction.setColor colorBlack] =
      .inr (h₁, a₁))
    (hk : M.resolve (M.upd h₁.keyb k .down) k = .other none) :
    getInput M (pre ++ XEvent.press k :: rest) h =
      some (⟨[], M.upd h₁.keyb k .down⟩, rest, a₁) ∧
    authRound M verify (pre ++ XEvent.press k :: rest) h =
      some (.next ⟨[], M.upd h₁.keyb k .down⟩ rest a₁) ∧
    ∀ cred, XAction.authCall cred ∉ a₁ := by
  have hgi : getInput M (pre ++ XEvent.press k :: rest) h =
      some (⟨[], M.upd h₁.keyb k .down⟩, rest, a₁) := by
    unfold getInput
    rw [getInputGo_append, hpre]
    dsimp only
    rw [getInputGo]
    simp [processEvent, hk, clearBuf]
  refine ⟨hgi, ?_, ?_⟩
  · rw [authRound_eq M verify _ h _ rest a₁ hgi]
    rfl
  · obtain ⟨t, ht, hall⟩ :=
      getInputGo_acts M pre h [XAction.setColor colorBlack]
    rw [hpre] at ht
    simp only [goActs] at ht
    intro cred hmem
    rw [ht] at hmem
    rcases List.mem_append.mp hmem with hm | hm
    · simp at hm
    · obtain ⟨c, hc⟩ := hall _ hm
      exact XAction.noConfusion hc

/-- Witness for C7: after typing 'a', a press of an undecodable key
(keycode 255) clears the stale 'a', ends the attempt, and the round
continues without an authentication call. -/
theorem C7_witness :
    getInput demoModel [XEvent.press 97, XEvent.press 255] ⟨[], ()⟩ =
      some (⟨[], ()⟩, [],
        [XAction.setColor colorBlack, XAction.setColor colorCyan]) ∧
    authRound demoModel (fun _ => true)
      [XEvent.press 97, XEvent.press 255] ⟨[], ()⟩ =
      some (.next ⟨[], ()⟩ []
        [XAction.setColor colorBlack, XAction.setColor colorCyan]) := by
  have t := C7_undecodable_clears_and_terminates demoModel (fun _ => true)
    [XEvent.press 97] [] 255 ⟨[], ()⟩ ⟨['a'], ()⟩
    [XAction.setColor colorBlack, XAction.setColor colorCyan]
    (by decide) rfl
  exact ⟨t.1, t.2.1⟩

/-- C8 counterexample: the claim says Success is painted as a distinct
overlay colour held ≈500 ms; in the code a Correct verdict just breaks
the loop — the successful round's last externally visible action is the
authentication call itself: no colour change and no sleep follow it. -/
theorem C8_counterexample :
    authRound demoModel (fun s => s == ['h', 'i'])
      [XEvent.press 104, XEvent.press 105, XEvent.press 36] ⟨[], ()⟩ =
      some (.unlocked ⟨['h', 'i'], ()⟩ []
        [XAction.setColor colorBlack, XAction.setColor colorCyan,
          XAction.authCall ['h', 'i']]) ∧
    ([XAction.setColor colorBlack, XAction.setColor colorCyan,
      XAction.authCall ['h', 'i']].getLast?) =
      some (XAction.authCall ['h', 'i']) ∧
    XAction.sleep 500 ∉
      [XAction.setColor colorBlack, XAction.setColor colorCyan,
        XAction.authCall (['h', 'i'] : List Char)] := by
  exact ⟨by decide, by decide, by decide⟩

/-- C8 amended: on submit of a non-empty buffer, an Incorrect verdict
paints the overlay red (a colour distinct from the idle black and the
typing cyan) and holds it by sleeping 500 ms, then the buffer is cleared
and the next round's `get_input` begins by repainting the idle black; a
Correct verdict ends the session immediately with no success colour and
no hold. -/
theorem C8_feedback_colors {K : Type} (M : XkbModel K)
    (verify : List Char → Bool) (evs : List XEvent) (h h' : IH K)
    (rest : List XEvent) (acts : List XAction)
    (hg : getInput M evs h = some (h', rest, acts)) (hne : h'.buf ≠ []) :
    (verify h'.buf = false →
      authRound M verify evs h =
        some (.next ⟨[], h'.keyb⟩ rest
          (acts ++ [.authCall h'.buf, .setColor colorRed,
            .sleep 500]))) ∧
    (verify h'.buf = true →
      authRound M verify evs h =
        some (.unlocked h' rest (acts ++ [.authCall h'.buf]))) ∧
    acts.head? = some (.setColor colorBlack) ∧
    colorRed ≠ colorBlack ∧ colorRed ≠ colorCyan := by
  refine ⟨?_, ?_, (getInput_acts M evs h h' rest acts hg).1,
    by decide, by decide⟩
  · intro hv
    rw [authRound_eq M verify evs h h' rest acts hg]
    simp [List.isEmpty_iff, hne, hv, clearBuf]
  · intro hv
    rw [authRound_eq M verify evs h h' rest acts hg]
    simp [List.isEmpty_iff, hne, hv]

/-- Witness for the amended C8: a wrong submit paints red and sleeps
500 ms; the trace of the round began with the idle black repaint; red is
distinct from black. -/
theorem C8_witness :
    authRound demoModel (fun _ => false)
      [XEvent.press 104, XEvent.press 36] ⟨[], ()⟩ =
      some (.next ⟨[], ()⟩ []
        [XAction.setColor colorBlack, XAction.setColor colorCyan,
          XAction.authCall ['h'], XAction.setColor colorRed,
          XAction.sleep 500]) ∧
    ([XAction.setColor colorBlack,
      XAction.setColor colorCyan] : List XAction).head? =
      some (XAction.setColor colorBlack) ∧
    colorRed ≠ colorBlack := by
  have t := C8_feedback_colors demoModel (fun _ => false)
    [XEvent.press 104, XEvent.press 36] ⟨[], ()⟩ ⟨['h'], ()⟩ []
    [XAction.setColor colorBlack, XAction.setColor colorCyan]
    (by decide) (by decide)
  exact ⟨t.1 rfl, t.2.2.1, t.2.2.2.1⟩

/-! ## Claims about the setup sequence and the buffer bound -/

/-- C1: the claim says a failed grab is fatal (panic/abort); in the code
`grab_cursor` and `grab_keyboard` send their requests with
`send_request` and discard the reply cookies, so the grab status is
never inspected: in an environment where the server reports
`AlreadyGrabbed` for both grabs, `lock_screen` completes exactly as in
the all-success environment and the session proceeds without the
grabs held. -/
theorem C1_grab_failure_not_fatal :
    envGrabFail.grabPointerStatus ≠ GrabStatus.success ∧
    envGrabFail.grabKeyboardStatus ≠ GrabStatus.success ∧
    lockScreen envGrabFail = lockScreen envOk ∧
    (lockScreen envGrabFail).isSome = true := by
  exact ⟨by decide, by decide, rfl, rfl⟩

/-- C2 counterexample: the claim puts keyboard-state construction before
the grab requests; in the actual trace both grab requests precede
`Keyb::new`, which only happens inside `authenticate`. -/
theorem C2_counterexample :
    setupTrace.indexOf Op.grabPointer < setupTrace.indexOf Op.keybNew ∧
    setupTrace.indexOf Op.grabKeyboard < setupTrace.indexOf Op.keybNew ∧
    ¬ setupTrace.indexOf Op.keybNew < setupTrace.indexOf Op.grabPointer := by
  exact ⟨by decide, by decide, by decide⟩

/-- C2 amended: the setup order is overlay creation → map → expose wait →
initial fill → cursor setup → grab requests → flush, with keyboard-state
construction afterwards, at the start of `authenticate`; a flush precedes
the blocking expose wait, the grabs are immediately followed by a flush,
and the input loop's first blocking wait is immediately preceded by a
flush (from `set_win_color`). -/
theorem C2_actual_setup_order :
    setupTrace.indexOf Op.connect < setupTrace.indexOf Op.createWindow ∧
    setupTrace.indexOf Op.createWindow < setupTrace.indexOf Op.mapWindow ∧
    setupTrace.indexOf Op.mapWindow < setupTrace.indexOf Op.waitExpose ∧
    setupTrace.indexOf Op.waitExpose < setupTrace.indexOf Op.grabPointer ∧
    setupTrace.indexOf Op.grabPointer <
      setupTrace.indexOf Op.grabKeyboard ∧
    setupTrace.indexOf Op.grabKeyboard < setupTrace.indexOf Op.keybNew ∧
    setupTrace.indexOf Op.keybNew < setupTrace.indexOf Op.waitEvent ∧
    setupTrace.indexOf Op.flush < setupTrace.indexOf Op.waitExpose ∧
    setupTrace.get? (setupTrace.indexOf Op.grabKeyboard + 1) =
      some Op.flush ∧
    setupTrace.get? (setupTrace.indexOf Op.waitEvent - 1) =
      some Op.flush := by
  refine ⟨?_, ?_, ?_, ?_, ?_, ?_, ?_, ?_, ?_, ?_⟩ <;> decide

/-- C5: the claim says the buffer length never exceeds the capacity; the
guard in `push_char` compares the *byte* length with `== MAX_BUF_SIZE`,
so a multi-byte character pushed at byte length 99 takes the buffer to
101 bytes, skipping the threshold — after which the buffer grows without
bound (the reset at exactly 100 still behaves as claimed). -/
theorem C5_byte_length_skips_cap :
    pushChar (List.replicate 100 'a') 'b' = ['b'] ∧
    bufLen (List.replicate 99 'a') = 99 ∧
    bufLen (pushChar (List.replicate 99 'a') 'é') = 101 ∧
    MAX_BUF_SIZE = 100 ∧
    bufLen (pushChar (pushChar (List.replicate 99 'a') 'é') 'c') = 102 := by
  exact ⟨by decide, by decide, by decide, rfl, by decide⟩

/-- C9: the transient-modifier reset applied once at keyboard-state
construction clears the depressed and latched modifier layers (and
layouts) while preserving the locked modifiers and the locked layout, so
a fresh session keeps caps-lock but never inherits a held shift. -/
theorem C9_reset_transient_mods (s : XkbState) :
    (keybNewState s).depressedMods = 0 ∧
    (keybNewState s).latchedMods = 0 ∧
    (keybNewState s).depressedLayout = 0 ∧
    (keybNewState s).latchedLayout = 0 ∧
    (keybNewState s).lockedMods = s.lockedMods ∧
    (keybNewState s).lockedLayout = s.lockedLayout :=
  ⟨rfl, rfl, rfl, rfl, rfl, rfl⟩

/-- C10: every buffer operation preserves the well-formed character
sequence: a push appends exactly one whole character (to the buffer or,
after the overflow reset, to the empty buffer), a pop removes exactly
the last whole character and is a no-op on the empty buffer, and the
UTF-8 byte serialization of any buffer the operations can produce
decodes without error to exactly its characters. -/
theorem C10_buffer_ops_preserve_validity :
    (∀ b c, pushChar b c = b ++ [c] ∨ pushChar b c = [c]) ∧
    (∀ b x, popChar (b ++ [x]) = b) ∧
    popChar [] = [] ∧
    (∀ b : List Char,
      utf8Decode (utf8EncodeList b) = some (b.map Char.toNat)) := by
  refine ⟨?_, ?_, rfl, utf8Decode_encode⟩
  · intro b c
    unfold pushChar clearBuf
    split_ifs <;> simp
  · intro b x
    simp [popChar]

end Zlock
